import Mathlib

/-!
Verification development for the mead media-transcoding core.

The definitions below are a shallow embedding of the Rust sources of
`mead-core`: bytes are modelled as `Nat` (each produced byte is `< 256`),
machine-integer casts are explicit `% 2 ^ w` operations, fallible Rust
functions return `Except Error` values, and methods taking `&mut self` are
modelled as state-passing functions returning the updated state alongside
the result.
-/

namespace Mead

/-! ## Tile-parallelism sizing (src/mead-core/src/codec/av1.rs, Av1Config::calculate_tiles) -/

/-- Modulus of the 64-bit `usize` type. -/
def usizeMod : Nat := 2 ^ 64

/-- Largest representable `usize` value, the initial value of `best_diff`. -/
def usizeMax : Nat := 2 ^ 64 - 1

/-- Fuel-bounded doubling loop computing the smallest power of two that is
at least `n`; the fuel only guarantees structural termination and `n` steps
always suffice. -/
def nextPowerOfTwoAux (n : Nat) : Nat → Nat → Nat
  | 0, p => p
  | fuel + 1, p => if n ≤ p then p else nextPowerOfTwoAux n fuel (2 * p)

/-- Smallest power of two greater than or equal to `n`, with `0` and `1`
both mapped to `1`, mirroring Rust's `usize::next_power_of_two`. -/
def nextPowerOfTwo (n : Nat) : Nat :=
  nextPowerOfTwoAux n n 1

/-- The fixed scan order of candidate `(cols, rows)` pairs: the Rust code
iterates `cols` in `[1,2,4,8]` outermost and `rows` in `[1,2,4,8]` inside. -/
def tilePairs : List (Nat × Nat) :=
  [(1, 1), (1, 2), (1, 4), (1, 8),
   (2, 1), (2, 2), (2, 4), (2, 8),
   (4, 1), (4, 2), (4, 4), (4, 8),
   (8, 1), (8, 2), (8, 4), (8, 8)]

/-- Accumulator of the search loop: `best_cols`, `best_rows`, `best_diff`. -/
structure TileBest where
  cols : Nat
  rows : Nat
  diff : Nat
deriving DecidableEq

/-- One iteration of the nested loop body of `calculate_tiles`: skip a pair
exceeding the per-axis caps, otherwise compare its distance to the target
tile count with the best so far (strict improvement only, so the first pair
in scan order wins ties). -/
def tileStep (maxTileCols maxTileRows targetTiles : Nat)
    (st : TileBest) (p : Nat × Nat) : TileBest :=
  if p.1 > maxTileCols ∨ p.2 > maxTileRows then st
  else
    let total := p.1 * p.2
    let diff := if total > targetTiles then total - targetTiles else targetTiles - total
    if diff < st.diff then ⟨p.1, p.2, diff⟩ else st

/-- Embedding of `Av1Config::calculate_tiles`.  `width` and `height` are the
`u32` arguments, `threads` the `usize` thread count; `threads * 2` is taken
modulo `2 ^ 64`, the wrapping semantics of release-mode Rust arithmetic. -/
def calculate_tiles (width height threads : Nat) : Nat × Nat :=
  let maxTileCols := max (nextPowerOfTwo (width / 256)) 1
  let maxTileRows := max (nextPowerOfTwo (height / 256)) 1
  let targetTiles := max (threads * 2 % usizeMod) 4
  let best := tilePairs.foldl (tileStep maxTileCols maxTileRows targetTiles) ⟨1, 1, usizeMax⟩
  (best.cols, best.rows)

/-- Fuel-bounded doubling loop computing the largest power of two that is at
most `n` (for `n ≥ 1`); `n` steps of fuel always suffice. -/
def largestPowTwoLEAux (n : Nat) : Nat → Nat → Nat
  | 0, p => p
  | fuel + 1, p => if 2 * p ≤ n then largestPowTwoLEAux n fuel (2 * p) else p

/-- Modelled from the spec: `max_cols` = largest power of two ≤ `floor(W/256)`,
minimum 1.  Used only to compare the spec's cap with what the code computes. -/
def largestPowTwoLE (n : Nat) : Nat :=
  if n = 0 then 1 else largestPowTwoLEAux n n 1

/-- A fold of `tileStep` over pairs that all exceed the caps leaves the
accumulator unchanged. -/
theorem foldl_tileStep_skip (mc mr tg : Nat) (l : List (Nat × Nat)) (st : TileBest)
    (h : ∀ p ∈ l, p.1 > mc ∨ p.2 > mr) :
    l.foldl (tileStep mc mr tg) st = st := by
  induction l generalizing st with
  | nil => rfl
  | cons p rest ih =>
    have hp := h p (List.mem_cons_self p rest)
    have hrest : ∀ q ∈ rest, q.1 > mc ∨ q.2 > mr :=
      fun q hq => h q (List.mem_cons_of_mem p hq)
    simp only [List.foldl_cons, tileStep, if_pos hp]
    exact ih st hrest

/-- With both per-axis caps at 1 and a target of at least 4, the search fold
keeps only the pair `(1, 1)`. -/
theorem foldl_tileStep_caps_one (tg : Nat) (h4 : 4 ≤ tg) (hlt : tg < usizeMod) :
    tilePairs.foldl (tileStep 1 1 tg) ⟨1, 1, usizeMax⟩ = ⟨1, 1, tg - 1⟩ := by
  have hstep1 : tileStep 1 1 tg ⟨1, 1, usizeMax⟩ (1, 1) = ⟨1, 1, tg - 1⟩ := by
    unfold tileStep
    have hguard : ¬ ((1 : Nat) > 1 ∨ (1 : Nat) > 1) := by simp
    rw [if_neg hguard]
    have hnotgt : ¬ ((1 : Nat) * 1 > tg) := by omega
    simp only [hnotgt, if_false, one_mul]
    have hdlt : tg - 1 < usizeMax := by
      have : usizeMax = usizeMod - 1 := by norm_num [usizeMax, usizeMod]
      omega
    rw [if_pos hdlt]
  have hrest : ∀ p ∈ [((1 : Nat), (2 : Nat)), (1, 4), (1, 8),
      (2, 1), (2, 2), (2, 4), (2, 8),
      (4, 1), (4, 2), (4, 4), (4, 8),
      (8, 1), (8, 2), (8, 4), (8, 8)], p.1 > 1 ∨ p.2 > 1 := by decide
  show List.foldl (tileStep 1 1 tg) ⟨1, 1, usizeMax⟩ ((1, 1) :: _) = _
  rw [List.foldl_cons, hstep1, foldl_tileStep_skip _ _ _ _ _ hrest]

/-- When both per-axis caps are 1 the search degenerates to the pair (1, 1). -/
theorem calculate_tiles_floor_zero (w h t : Nat)
    (hw : w / 256 = 0) (hh : h / 256 = 0) :
    calculate_tiles w h t = (1, 1) := by
  have htg4 : 4 ≤ max (t * 2 % usizeMod) 4 := le_max_right _ _
  have htglt : max (t * 2 % usizeMod) 4 < usizeMod := by
    have h1 : t * 2 % usizeMod < usizeMod := Nat.mod_lt _ (by norm_num [usizeMod])
    have h2 : (4 : Nat) < usizeMod := by norm_num [usizeMod]
    exact max_lt h1 h2
  have hmc : max (nextPowerOfTwo 0) 1 = 1 := by decide
  simp only [calculate_tiles, hw, hh, hmc]
  rw [foldl_tileStep_caps_one _ htg4 htglt]

/-- Membership of the accumulator components in `{1, 2, 4, 8}`. -/
abbrev quadPow (n : Nat) : Prop := n = 1 ∨ n = 2 ∨ n = 4 ∨ n = 8

/-- `tileStep` preserves `{1,2,4,8}`-membership of the accumulator when every
candidate pair drawn from the scan has components in `{1,2,4,8}`. -/
theorem tileStep_quad (mc mr tg : Nat) (st : TileBest) (p : Nat × Nat)
    (hst : quadPow st.cols ∧ quadPow st.rows) (hp : quadPow p.1 ∧ quadPow p.2) :
    quadPow (tileStep mc mr tg st p).cols ∧ quadPow (tileStep mc mr tg st p).rows := by
  unfold tileStep
  split
  · exact hst
  · dsimp only
    split <;> split <;> first | exact ⟨hp.1, hp.2⟩ | exact hst

/-- Folding `tileStep` over pairs with components in `{1,2,4,8}` keeps the
accumulator components in `{1,2,4,8}`. -/
theorem foldl_tileStep_quad (mc mr tg : Nat) (l : List (Nat × Nat)) (st : TileBest)
    (hl : ∀ p ∈ l, quadPow p.1 ∧ quadPow p.2)
    (hst : quadPow st.cols ∧ quadPow st.rows) :
    quadPow (l.foldl (tileStep mc mr tg) st).cols ∧
    quadPow (l.foldl (tileStep mc mr tg) st).rows := by
  induction l generalizing st with
  | nil => exact hst
  | cons p rest ih =>
    have hp := hl p (List.mem_cons_self p rest)
    have hrest : ∀ q ∈ rest, quadPow q.1 ∧ quadPow q.2 :=
      fun q hq => hl q (List.mem_cons_of_mem p hq)
    simp only [List.foldl_cons]
    exact ih (tileStep mc mr tg st p) hrest (tileStep_quad mc mr tg st p hst hp)

/-- C1: the spec caps tile columns at the largest power of two that is at
most `floor(W/256)` (minimum 1), but the code rounds `floor(W/256)` UP with
`next_power_of_two`: at width 768 the spec's cap is 2 (largest power of two
≤ 3) while `calculate_tiles 768 2048 16` returns 4 columns, producing
192-pixel-wide tiles below the 256-pixel floor the code itself documents. -/
theorem c1_calculate_tiles_exceeds_spec_cap :
    calculate_tiles 768 2048 16 = (4, 8) ∧
    largestPowTwoLE (768 / 256) = 2 ∧ ¬ (4 ≤ 2) := by
  refine ⟨by decide, by decide, by decide⟩

/-- C9: `calculate_tiles 1920 1080 8` returns a pair with both components in
`{1,2,4,8}` and a product between 4 and 32, and for every thread count `T`,
`calculate_tiles 64 64 T` is exactly `(1, 1)`. -/
theorem c9_calculate_tiles_examples :
    (quadPow (calculate_tiles 1920 1080 8).1 ∧
     quadPow (calculate_tiles 1920 1080 8).2 ∧
     4 ≤ (calculate_tiles 1920 1080 8).1 * (calculate_tiles 1920 1080 8).2 ∧
     (calculate_tiles 1920 1080 8).1 * (calculate_tiles 1920 1080 8).2 ≤ 32) ∧
    ∀ t : Nat, calculate_tiles 64 64 t = (1, 1) := by
  constructor
  · have h : calculate_tiles 1920 1080 8 = (4, 4) := by decide
    rw [h]
    exact ⟨Or.inr (Or.inr (Or.inl rfl)), Or.inr (Or.inr (Or.inl rfl)), by decide, by decide⟩
  · intro t
    exact calculate_tiles_floor_zero 64 64 t rfl rfl

/-- C10: `calculate_tiles` is total on the embedding and always returns a pair
with both components in `{1,2,4,8}`; when both `floor(width/256)` and
`floor(height/256)` are 0 it returns exactly `(1, 1)`. -/
theorem c10_calculate_tiles_total_range (w h t : Nat) :
    quadPow (calculate_tiles w h t).1 ∧ quadPow (calculate_tiles w h t).2 ∧
    (w / 256 = 0 → h / 256 = 0 → calculate_tiles w h t = (1, 1)) := by
  refine ⟨?_, ?_, fun hw hh => calculate_tiles_floor_zero w h t hw hh⟩
  all_goals {
    unfold calculate_tiles
    have hl : ∀ p ∈ tilePairs, quadPow p.1 ∧ quadPow p.2 := by decide
    have hst : quadPow (TileBest.mk 1 1 usizeMax).cols ∧
        quadPow (TileBest.mk 1 1 usizeMax).rows := ⟨Or.inl rfl, Or.inl rfl⟩
    have := foldl_tileStep_quad (max (nextPowerOfTwo (w / 256)) 1)
      (max (nextPowerOfTwo (h / 256)) 1) (max (t * 2 % usizeMod) 4)
      tilePairs ⟨1, 1, usizeMax⟩ hl hst
    first
    | exact this.1
    | exact this.2
  }

/-- C10 witness: at `(64, 64, 5)` both floors are 0 and the result is `(1,1)`
with components in `{1,2,4,8}`. -/
theorem c10_calculate_tiles_total_range_witness :
    quadPow (calculate_tiles 64 64 5).1 ∧ calculate_tiles 64 64 5 = (1, 1) :=
  ⟨(c10_calculate_tiles_total_range 64 64 5).1,
   (c10_calculate_tiles_total_range 64 64 5).2.2 rfl rfl⟩

/-! ## Frame and plane buffers (src/mead-core/src/frame.rs) -/

/-- Pixel formats supported by the frame model. -/
inductive PixelFormat where
  | yuv420p
  | yuv422p
  | yuv444p
  | rgb24
deriving DecidableEq

/-- A single plane of pixel data; the byte buffer is a `List Nat`. -/
structure Plane where
  data : List Nat
  stride : Nat
  width : Nat
  height : Nat
deriving DecidableEq

/-- Embedding of `Plane::new`: a zero-filled buffer of `stride * height`
bytes with the stride equal to the width. -/
def Plane.new (width height : Nat) : Plane :=
  let stride := width
  ⟨List.replicate (stride * height) 0, stride, width, height⟩

/-- A decoded video frame with its plane list, luma-resolution dimensions,
pixel format and optional presentation timestamp. -/
structure Frame where
  planes : List Plane
  width : Nat
  height : Nat
  format : PixelFormat
  pts : Option Int
deriving DecidableEq

/-- Embedding of `Frame::new`: the plane set determined by the format, with
`u32` division on the subsampled dimensions.  The Rgb24 arm's `width * 3`
is computed in `u32` by the source, so it wraps modulo `2 ^ 32` (the
release-mode semantics of the overflow). -/
def Frame.new (width height : Nat) (format : PixelFormat) : Frame :=
  let planes :=
    match format with
    | .yuv420p =>
        [Plane.new width height,
         Plane.new (width / 2) (height / 2),
         Plane.new (width / 2) (height / 2)]
    | .yuv422p =>
        [Plane.new width height,
         Plane.new (width / 2) height,
         Plane.new (width / 2) height]
    | .yuv444p =>
        [Plane.new width height,
         Plane.new width height,
         Plane.new width height]
    | .rgb24 =>
        [Plane.new (width * 3 % 2 ^ 32) height]
  ⟨planes, width, height, format, none⟩

/-- Embedding of `Frame::plane_y`: present only for the YUV formats.  The
Rust code indexes `self.planes[0]`, which cannot fail on frames built by
`Frame::new`; the embedding uses an optional lookup. -/
def Frame.plane_y (f : Frame) : Option Plane :=
  match f.format with
  | .rgb24 => none
  | _ => f.planes.get? 0

/-- Embedding of `Frame::plane_u`. -/
def Frame.plane_u (f : Frame) : Option Plane :=
  match f.format with
  | .rgb24 => none
  | _ => f.planes.get? 1

/-- Embedding of `Frame::plane_v`. -/
def Frame.plane_v (f : Frame) : Option Plane :=
  match f.format with
  | .rgb24 => none
  | _ => f.planes.get? 2

/-- C3 counterexample: at the even in-`u32`-range width 1431655766, the
source computes the Rgb24 plane width `width * 3` in `u32`, which wraps to
`4294967298 mod 2 ^ 32 = 2`; the claim's table value `w * 3` is not the
plane width the program produces. -/
theorem c3_frame_new_rgb24_wraps :
    1431655766 % 2 = 0 ∧
    (Frame.new 1431655766 2 PixelFormat.rgb24).planes.map
        (fun pl => (pl.width, pl.height)) = [(2, 2)] ∧
    (2 : Nat) ≠ 1431655766 * 3 :=
  ⟨by decide, rfl, by decide⟩

/-- C3 amended: for even dimensions and every pixel format, `Frame::new`
produces exactly the plane dimensions of the spec's subsampling table,
except that the Rgb24 plane width is `w * 3` computed in `u32`, i.e.
`(w * 3) mod 2 ^ 32` (equal to `w * 3` whenever that product fits in
`u32`); and every plane's byte buffer has length `stride * height` with the
stride equal to the plane width. -/
theorem c3_frame_new_planes (w h : Nat) (hw : w % 2 = 0) (hh : h % 2 = 0)
    (fmt : PixelFormat) :
    ((Frame.new w h fmt).planes.map (fun pl => (pl.width, pl.height)) =
      match fmt with
      | .yuv420p => [(w, h), (w / 2, h / 2), (w / 2, h / 2)]
      | .yuv422p => [(w, h), (w / 2, h), (w / 2, h)]
      | .yuv444p => [(w, h), (w, h), (w, h)]
      | .rgb24 => [(w * 3 % 2 ^ 32, h)]) ∧
    ∀ pl ∈ (Frame.new w h fmt).planes,
      pl.stride = pl.width ∧ pl.data.length = pl.stride * pl.height := by
  cases fmt <;> simp [Frame.new, Plane.new, List.mem_cons]

/-- C3 witness: the plane table at `(4, 2, Yuv420p)`. -/
theorem c3_frame_new_planes_witness :
    4 % 2 = 0 ∧ 2 % 2 = 0 ∧
    (Frame.new 4 2 PixelFormat.yuv420p).planes.map (fun pl => (pl.width, pl.height)) =
      [(4, 2), (2, 1), (2, 1)] :=
  ⟨by decide, by decide,
   (c3_frame_new_planes 4 2 (by decide) (by decide) PixelFormat.yuv420p).1⟩

/-! ## Error taxonomy (src/mead-core/src/error.rs)

Message strings are kept short where the Rust code interpolates runtime
values into them; theorems only inspect the error class. -/

/-- The `Error` enum of mead-core. -/
inductive Error where
  | io : String → Error
  | containerParse : String → Error
  | codec : String → Error
  | unsupportedFormat : String → Error
  | invalidInput : String → Error
deriving DecidableEq

/-- A packet of encoded media data (src/mead-core/src/container/mod.rs).
`data` is the payload byte list; `pts` and `dts` are `i64` timestamps. -/
structure Packet where
  stream_index : Nat
  data : List Nat
  pts : Option Int
  dts : Option Int
  is_keyframe : Bool
deriving DecidableEq

/-! ## IVF container (src/mead-core/src/container/ivf.rs) -/

/-- Little-endian byte encoding of `v` on `k` bytes, as produced by the
Rust `to_le_bytes` calls (values of the source's integer types always fit). -/
def toLEBytes : Nat → Nat → List Nat
  | _, 0 => []
  | v, k + 1 => v % 256 :: toLEBytes (v / 256) k

/-- The `DKIF` signature bytes. -/
def dkifMagic : List Nat := [68, 75, 73, 70]

/-- The `AV01` fourcc bytes. -/
def av01Tag : List Nat := [65, 86, 48, 49]

/-- The IVF 32-byte file header record. -/
structure IvfHeader where
  signature : List Nat
  version : Nat
  header_size : Nat
  fourcc : List Nat
  width : Nat
  height : Nat
  timebase_den : Nat
  timebase_num : Nat
  frame_count : Nat
  unused : Nat
deriving DecidableEq

/-- Embedding of `IvfHeader::new`: note that `timebase_den` receives
`fps_den` and `timebase_num` receives `fps_num`. -/
def IvfHeader.new (width height fps_num fps_den : Nat) : IvfHeader :=
  ⟨dkifMagic, 0, 32, av01Tag, width, height, fps_den, fps_num, 0, 0⟩

/-- Embedding of `IvfHeader::write`: the field-by-field little-endian byte
serialization of the header. -/
def IvfHeader.write (h : IvfHeader) : List Nat :=
  h.signature ++ toLEBytes h.version 2 ++ toLEBytes h.header_size 2 ++
  h.fourcc ++ toLEBytes h.width 2 ++ toLEBytes h.height 2 ++
  toLEBytes h.timebase_den 4 ++ toLEBytes h.timebase_num 4 ++
  toLEBytes h.frame_count 4 ++ toLEBytes h.unused 4

/-- The `i64` to `u64` cast of Rust: the value modulo `2 ^ 64`,
as a natural number. -/
def i64ToU64 (x : Int) : Nat := (x % (2 : Int) ^ 64).toNat

/-- The IVF muxer state: the bytes written to the sink so far, the stored
header, the `u32` frame counter and the recorded dimensions. -/
structure IvfMuxer where
  output : List Nat
  header : IvfHeader
  frame_count : Nat
  width : Nat
  height : Nat
deriving DecidableEq

/-- Embedding of `IvfMuxer::new`: writes the 32-byte header immediately. -/
def IvfMuxer.new (width height fps_num fps_den : Nat) : IvfMuxer :=
  let h := IvfHeader.new width height fps_num fps_den
  ⟨h.write, h, 0, width, height⟩

/-- Embedding of `IvfMuxer::write_packet`.  The `&mut self` method is
modelled by returning the updated state next to the result; the non-zero
stream-index check precedes every write, so on that error path the state is
returned untouched.  The payload length is cast to `u32`, the timestamp is
`pts` (defaulting to the current frame counter) cast to `u64`, and the
frame counter increments with `u32` wrap-around. -/
def IvfMuxer.write_packet (m : IvfMuxer) (p : Packet) :
    Except Error Unit × IvfMuxer :=
  if p.stream_index ≠ 0 then
    (.error (.invalidInput "IVF only supports stream index 0"), m)
  else
    let timestamp := i64ToU64 (p.pts.getD (m.frame_count : Int))
    let frameHeader := toLEBytes (p.data.length % 2 ^ 32) 4 ++ toLEBytes timestamp 8
    (.ok (), { m with
      output := m.output ++ frameHeader ++ p.data,
      frame_count := (m.frame_count + 1) % 2 ^ 32 })

/-- Sequential writing of a packet list, stopping at the first error. -/
def IvfMuxer.writeAll (m : IvfMuxer) (ps : List Packet) :
    Except Error Unit × IvfMuxer :=
  match ps with
  | [] => (.ok (), m)
  | p :: rest =>
    match m.write_packet p with
    | (.ok _, m2) => m2.writeAll rest
    | (.error e, m2) => (.error e, m2)

/-- C8: a packet with a non-zero stream index makes `write_packet` fail with
an invalid-input error and leaves the muxer state — output bytes and frame
count included — exactly unchanged. -/
theorem c8_ivf_write_packet_bad_stream (m : IvfMuxer) (p : Packet)
    (h : p.stream_index ≠ 0) :
    m.write_packet p = (.error (.invalidInput "IVF only supports stream index 0"), m) := by
  simp [IvfMuxer.write_packet, h]

/-- C8 witness: a stream-index-1 packet against a fresh muxer. -/
theorem c8_ivf_write_packet_bad_stream_witness :
    (1 : Nat) ≠ 0 ∧
    (IvfMuxer.new 1920 1080 30 1).write_packet ⟨1, [1, 2, 3], some 0, none, true⟩ =
      (.error (.invalidInput "IVF only supports stream index 0"),
       IvfMuxer.new 1920 1080 30 1) :=
  ⟨by decide,
   c8_ivf_write_packet_bad_stream (IvfMuxer.new 1920 1080 30 1)
     ⟨1, [1, 2, 3], some 0, none, true⟩ (by decide)⟩

/-- Length of a little-endian encoding. -/
theorem toLEBytes_length (v k : Nat) : (toLEBytes v k).length = k := by
  induction k generalizing v with
  | zero => rfl
  | succ n ih => simp [toLEBytes, ih]

/-- Modelled from the spec: the 12-byte frame header's timestamp is the
packet's pts when present, else the number of packets written before it. -/
def ivfSpecTimestamp (i : Nat) (p : Packet) : Nat :=
  match p.pts with
  | some v => v.toNat
  | none => i

/-- Modelled from the spec: the frame record for the packet at sequence
position `i` — u32 payload length, u64 timestamp, then the payload bytes. -/
def ivfSpecFrame (i : Nat) (p : Packet) : List Nat :=
  toLEBytes p.data.length 4 ++ (toLEBytes (ivfSpecTimestamp i p) 8 ++ p.data)

/-- Frame records for a packet list starting at sequence position `i`. -/
def ivfSpecFrames : Nat → List Packet → List Nat
  | _, [] => []
  | i, p :: rest => ivfSpecFrame i p ++ ivfSpecFrames (i + 1) rest

/-- Modelled from the spec: the 32-byte little-endian file header — magic,
u16 version 0, u16 header size 32, codec tag, u16 width, u16 height, u32
frame-rate denominator, then u32 numerator, u32 frame count 0, u32 reserved. -/
def ivfSpecFileHeader (w h fn fd : Nat) : List Nat :=
  dkifMagic ++ (toLEBytes 0 2 ++ (toLEBytes 32 2 ++ (av01Tag ++
  (toLEBytes w 2 ++ (toLEBytes h 2 ++ (toLEBytes fd 4 ++ (toLEBytes fn 4 ++
  (toLEBytes 0 4 ++ toLEBytes 0 4))))))))

/-- Modelled from the spec: the whole expected byte stream. -/
def ivfSpecStream (w h fn fd : Nat) (ps : List Packet) : List Nat :=
  ivfSpecFileHeader w h fn fd ++ ivfSpecFrames 0 ps

/-- Byte offset of frame record `i` inside the expected stream. -/
def ivfFrameOffset (ps : List Packet) (i : Nat) : Nat :=
  32 + (((ps.take i).map fun p => 12 + p.data.length).sum)

/-- The i64 timestamps the source can represent without wrap-around: a
present pts lies in the non-negative `i64` range (an absent pts defaults
the bound vacuously, since `getD 0` then yields 0). -/
abbrev ptsOk (p : Packet) : Prop :=
  0 ≤ p.pts.getD 0 ∧ p.pts.getD 0 < 2 ^ 63

/-- The spec header is 32 bytes long. -/
theorem ivfSpecFileHeader_length (w h fn fd : Nat) :
    (ivfSpecFileHeader w h fn fd).length = 32 := by
  simp [ivfSpecFileHeader, dkifMagic, av01Tag, toLEBytes_length]

/-- A frame record is 12 bytes of header plus the payload. -/
theorem ivfSpecFrame_length (i : Nat) (p : Packet) :
    (ivfSpecFrame i p).length = (12 + p.data.length) := by
  simp [ivfSpecFrame, toLEBytes_length]
  omega

/-- The muxer's header serialization coincides with the spec's 32-byte
header description. -/
theorem ivfHeader_write_spec (w h fn fd : Nat) :
    (IvfHeader.new w h fn fd).write = ivfSpecFileHeader w h fn fd := by
  simp [IvfHeader.new, IvfHeader.write, ivfSpecFileHeader, List.append_assoc]

/-- Running `write_packet` over a packet list of valid stream index, payload
size and timestamps appends exactly the spec's frame records and advances
the frame counter by the packet count. -/
theorem writeAll_spec (ps : List Packet) : ∀ (m : IvfMuxer),
    (∀ p ∈ ps, p.stream_index = 0) →
    (∀ p ∈ ps, p.data.length < 2 ^ 32) →
    (∀ p ∈ ps, ptsOk p) →
    m.frame_count + ps.length < 2 ^ 32 →
    m.writeAll ps = (.ok (), { m with
      output := m.output ++ ivfSpecFrames m.frame_count ps,
      frame_count := m.frame_count + ps.length }) := by
  induction ps with
  | nil =>
    intro m _ _ _ _
    simp [IvfMuxer.writeAll, ivfSpecFrames]
  | cons p rest ih =>
    intro m h0 h1 h2 hfc
    have hp0 : p.stream_index = 0 := h0 p (List.mem_cons_self p rest)
    have hlen : p.data.length % 2 ^ 32 = p.data.length :=
      Nat.mod_eq_of_lt (h1 p (List.mem_cons_self p rest))
    have hts : i64ToU64 (p.pts.getD (m.frame_count : Int)) =
        ivfSpecTimestamp m.frame_count p := by
      cases hv : p.pts with
      | some v =>
        have hpts : 0 ≤ v ∧ v < 2 ^ 63 := by
          have hh2 := h2 p (List.mem_cons_self p rest)
          unfold ptsOk at hh2
          rw [hv] at hh2
          simpa using hh2
        simp only [i64ToU64, ivfSpecTimestamp, hv, Option.getD_some]
        omega
      | none =>
        have h32 : m.frame_count < 2 ^ 64 := by
          simp only [List.length_cons] at hfc
          omega
        simp only [i64ToU64, ivfSpecTimestamp, hv, Option.getD_none]
        omega
    have hfc1 : (m.frame_count + 1) % 2 ^ 32 = m.frame_count + 1 := by
      apply Nat.mod_eq_of_lt
      have := rest.length
      simp only [List.length_cons] at hfc
      omega
    simp only [IvfMuxer.writeAll, IvfMuxer.write_packet, hp0, ne_eq,
      not_true_eq_false, if_false, ite_false, if_neg (by simp [hp0] : ¬ p.stream_index ≠ 0)]
    rw [hlen, hts, hfc1]
    rw [ih _ (fun q hq => h0 q (List.mem_cons_of_mem p hq))
      (fun q hq => h1 q (List.mem_cons_of_mem p hq))
      (fun q hq => h2 q (List.mem_cons_of_mem p hq))
      (by simp only [List.length_cons] at hfc; simp; omega)]
    simp [ivfSpecFrames, ivfSpecFrame, List.append_assoc]
    omega

/-- Dropping the lengths of the first `i` frame records from the spec frame
list lands exactly on the record of packet `i`. -/
theorem ivfSpecFrames_drop (ps : List Packet) : ∀ (i i0 : Nat) (hi : i < ps.length),
    (ivfSpecFrames i0 ps).drop (((ps.take i).map fun p => 12 + p.data.length).sum) =
      ivfSpecFrame (i0 + i) (ps.get ⟨i, hi⟩) ++
        ivfSpecFrames (i0 + i + 1) (ps.drop (i + 1)) := by
  induction ps with
  | nil => intro i i0 hi; exact absurd hi (by simp)
  | cons p rest ih =>
    intro i i0 hi
    cases i with
    | zero =>
      simp [ivfSpecFrames]
    | succ j =>
      have hj : j < rest.length := by
        simp only [List.length_cons] at hi
        omega
      have hsum : (((p :: rest).take (j + 1)).map fun q => 12 + q.data.length).sum =
          (ivfSpecFrame i0 p).length +
            (((rest.take j).map fun q => 12 + q.data.length).sum) := by
        simp [List.take_cons, ivfSpecFrame_length]
      rw [show ivfSpecFrames i0 (p :: rest) =
            ivfSpecFrame i0 p ++ ivfSpecFrames (i0 + 1) rest from rfl,
          hsum, List.drop_append, ih j (i0 + 1) hj]
      have h1 : i0 + 1 + j = i0 + (j + 1) := by omega
      have h2 : i0 + 1 + j + 1 = i0 + (j + 1) + 1 := by omega
      simp [h1, h2, List.get_cons_succ]

/-- C2: writing `n` stream-0 packets into a fresh IVF muxer produces exactly
the spec's byte stream — the 32-byte little-endian file header (magic,
version 0, header size 32, codec tag, width, height, frame-rate denominator
before numerator, frame count 0, reserved 0) followed for each packet by a
12-byte frame header (u32 payload length, u64 timestamp = pts when present,
else the number of packets written before it) and the payload unchanged —
and each payload is recoverable byte-for-byte at its sequence position. -/
theorem c2_ivf_mux_stream (w h fn fd : Nat) (ps : List Packet)
    (h0 : ∀ p ∈ ps, p.stream_index = 0)
    (h1 : ∀ p ∈ ps, p.data.length < 2 ^ 32)
    (h2 : ∀ p ∈ ps, ptsOk p)
    (hn : ps.length < 2 ^ 32) :
    ((IvfMuxer.new w h fn fd).writeAll ps).1 = .ok () ∧
    ((IvfMuxer.new w h fn fd).writeAll ps).2.output = ivfSpecStream w h fn fd ps ∧
    ∀ i (hi : i < ps.length),
      ((((IvfMuxer.new w h fn fd).writeAll ps).2.output.drop
          (ivfFrameOffset ps i + 12)).take (ps.get ⟨i, hi⟩).data.length) =
        (ps.get ⟨i, hi⟩).data := by
  have hrun := writeAll_spec ps (IvfMuxer.new w h fn fd) h0 h1 h2
    (by simp [IvfMuxer.new]; omega)
  have hout : ((IvfMuxer.new w h fn fd).writeAll ps).2.output =
      ivfSpecStream w h fn fd ps := by
    rw [hrun]
    simp [IvfMuxer.new, ivfSpecStream, ivfHeader_write_spec]
  refine ⟨by rw [hrun], hout, ?_⟩
  intro i hi
  rw [hout]
  have hoff : ivfFrameOffset ps i + 12 =
      (ivfSpecFileHeader w h fn fd).length +
        ((((ps.take i).map fun p => 12 + p.data.length).sum) + 12) := by
    rw [ivfSpecFileHeader_length]
    unfold ivfFrameOffset
    omega
  rw [ivfSpecStream, hoff, List.drop_append, ← List.drop_drop,
    ivfSpecFrames_drop ps i 0 hi]
  have hsplit : ivfSpecFrame (0 + i) (ps.get ⟨i, hi⟩) ++
      ivfSpecFrames (0 + i + 1) (ps.drop (i + 1)) =
      (toLEBytes (ps.get ⟨i, hi⟩).data.length 4 ++
        toLEBytes (ivfSpecTimestamp (0 + i) (ps.get ⟨i, hi⟩)) 8) ++
      ((ps.get ⟨i, hi⟩).data ++ ivfSpecFrames (0 + i + 1) (ps.drop (i + 1))) := by
    simp [ivfSpecFrame, List.append_assoc]
  rw [hsplit, List.drop_left' (by simp [toLEBytes_length]),
    List.take_left' rfl]

/-- C2 witness: two packets through a fresh muxer, one with an explicit pts
and one timestamped by the running counter. -/
theorem c2_ivf_mux_stream_witness :
    ((IvfMuxer.new 640 480 30 1).writeAll
        [⟨0, [9, 8, 7], some 5, none, true⟩, ⟨0, [6], none, none, false⟩]).1 =
      .ok () ∧
    ((IvfMuxer.new 640 480 30 1).writeAll
        [⟨0, [9, 8, 7], some 5, none, true⟩, ⟨0, [6], none, none, false⟩]).2.output =
      ivfSpecStream 640 480 30 1
        [⟨0, [9, 8, 7], some 5, none, true⟩, ⟨0, [6], none, none, false⟩] :=
  ⟨(c2_ivf_mux_stream 640 480 30 1 _ (by decide) (by decide) (by decide) (by decide)).1,
   (c2_ivf_mux_stream 640 480 30 1 _ (by decide) (by decide) (by decide) (by decide)).2.1⟩

/-! ## AV1 encoder wrapper (src/mead-core/src/codec/av1.rs, VideoEncoder impl)

The underlying rav1e `Context` is an external dependency; its interaction
with the wrapper is modelled by the status values it can hand back and, for
`send_frame`, by the list of calls the wrapper makes into it. -/

/-- The rav1e `EncoderStatus` values the wrapper's `receive_packet` match
distinguishes; `failure` stands for any other error status. -/
inductive EncoderStatus where
  | needMoreData
  | limitReached
  | encoded
  | failure : String → EncoderStatus
deriving DecidableEq

/-- One response of the rav1e context's `receive_packet`: a packet's data
bytes, or a status. -/
abbrev CtxResponse := Except EncoderStatus (List Nat)

/-- Embedding of `Av1Encoder::receive_packet` over the sequence of context
responses: `Encoded` makes the wrapper call itself again, a packet maps to
`Ok(Some(data))`, and both `NeedMoreData` and `LimitReached` map to
`Ok(None)`.  The empty-list case is a modelling artifact only — the real
context always answers — and is never exercised by the theorems. -/
def receive_packet_loop : List CtxResponse → Except Error (Option (List Nat))
  | [] => .error (.codec "context yielded no response")
  | r :: rest =>
    match r with
    | .ok d => .ok (some d)
    | .error .encoded => receive_packet_loop rest
    | .error .needMoreData => .ok none
    | .error .limitReached => .ok none
    | .error (.failure e) => .error (.codec e)

/-- C4 counterexample: the "not ready yet" context status (`NeedMoreData`)
and the terminal "no more output" status (`LimitReached`) produce the very
same returned value `Ok(None)`, so a caller cannot tell the transient case
from the terminal one from the returned value, contrary to the claim. -/
theorem c4_receive_packet_indistinguishable :
    receive_packet_loop [.error EncoderStatus.needMoreData] =
      receive_packet_loop [.error EncoderStatus.limitReached] ∧
    receive_packet_loop [.error EncoderStatus.needMoreData] = .ok none :=
  ⟨rfl, rfl⟩

/-- C4 amended: `receive_packet` has exactly two non-error outcomes — one
packet (`Ok(Some _)`), and `Ok(None)`, which is returned both while the
encoder is still buffering (`NeedMoreData`) and once draining has fully
flushed (`LimitReached`); the two cases are not distinguishable from the
returned value.  `Encoded` only retries on the remaining responses. -/
theorem c4_receive_packet_two_outcomes (rest : List CtxResponse)
    (d : List Nat) (e : String) :
    receive_packet_loop (.ok d :: rest) = .ok (some d) ∧
    receive_packet_loop (.error EncoderStatus.needMoreData :: rest) = .ok none ∧
    receive_packet_loop (.error EncoderStatus.limitReached :: rest) = .ok none ∧
    receive_packet_loop (.error EncoderStatus.encoded :: rest) =
      receive_packet_loop rest ∧
    receive_packet_loop (.error (EncoderStatus.failure e) :: rest) =
      .error (.codec e) :=
  ⟨rfl, rfl, rfl, rfl, rfl⟩

/-- The encoder wrapper state: the configured dimensions. -/
structure Av1Encoder where
  width : Nat
  height : Nat
deriving DecidableEq

/-- Calls `send_frame` makes into the underlying rav1e context. -/
inductive CtxCall where
  | submitted
  | flushed
deriving DecidableEq

/-- Embedding of `Av1Encoder::send_frame`.  The result is paired with the
list of interactions with the underlying context: the dimension check and
the format check precede the frame copy and submission, so on either
invalid-input path no call reaches the context.  The row-by-row plane copy
itself lives in the external rav1e frame and is abstracted into the
`submitted` call. -/
def Av1Encoder.send_frame (enc : Av1Encoder) (frame : Option Frame) :
    Except Error Unit × List CtxCall :=
  match frame with
  | some f =>
    if f.width ≠ enc.width ∨ f.height ≠ enc.height then
      (.error (.invalidInput "Frame dimensions do not match encoder"), [])
    else if f.format ≠ PixelFormat.yuv420p then
      (.error (.invalidInput "AV1 encoder currently only supports YUV420p format"), [])
    else
      match f.plane_y, f.plane_u, f.plane_v with
      | some _, some _, some _ => (.ok (), [.submitted])
      | _, _, _ => (.error (.invalidInput "Frame missing plane"), [])
  | none => (.ok (), [.flushed])

/-- C6: a frame whose dimensions differ from the encoder's configuration or
whose format is not planar 4:2:0 makes `send_frame` fail with an
invalid-input error, and no frame is submitted to the underlying encoder. -/
theorem c6_send_frame_rejects_invalid (enc : Av1Encoder) (f : Frame)
    (hbad : f.width ≠ enc.width ∨ f.height ≠ enc.height ∨
      f.format ≠ PixelFormat.yuv420p) :
    (∃ msg, (enc.send_frame (some f)).1 = .error (.invalidInput msg)) ∧
    (enc.send_frame (some f)).2 = [] := by
  simp only [Av1Encoder.send_frame]
  by_cases hdim : f.width ≠ enc.width ∨ f.height ≠ enc.height
  · rw [if_pos hdim]
    exact ⟨⟨_, rfl⟩, rfl⟩
  · have hfmt : f.format ≠ PixelFormat.yuv420p := by tauto
    rw [if_neg hdim, if_pos hfmt]
    exact ⟨⟨_, rfl⟩, rfl⟩

/-- C6 witness: a 32x32 frame against a 64x64 encoder. -/
theorem c6_send_frame_rejects_invalid_witness :
    ((32 : Nat) ≠ 64 ∨ (32 : Nat) ≠ 64 ∨
      (Frame.new 32 32 PixelFormat.yuv420p).format ≠ PixelFormat.yuv420p) ∧
    (Av1Encoder.mk 64 64 |>.send_frame (some (Frame.new 32 32 PixelFormat.yuv420p))).2 = [] :=
  ⟨Or.inl (by decide),
   (c6_send_frame_rejects_invalid ⟨64, 64⟩ (Frame.new 32 32 PixelFormat.yuv420p)
     (Or.inl (by decide))).2⟩

/-! ## Y4M demuxer (src/mead-core/src/container/y4m.rs) -/

/-- The colorspace tags of the external y4m crate's `Colorspace` enum; the
source matches the seven accepted tags explicitly and sends every other
variant through a catch-all rejection arm. -/
inductive Colorspace where
  | cmono
  | c420
  | c420jpeg
  | c420paldv
  | c420mpeg2
  | c420p10
  | c420p12
  | c422
  | c422p10
  | c422p12
  | c444
  | c444p10
  | c444p12
deriving DecidableEq

/-- The demuxer state after a successful open: header-derived fields and
the frame counter, which starts at 0 (no frame has been read). -/
structure Y4mDemuxer where
  width : Nat
  height : Nat
  framerate : Nat × Nat
  pixel_format : PixelFormat
  frame_count : Nat
deriving DecidableEq

/-- Embedding of `Y4mDemuxer::new` after the external header parse has
produced the width, height, framerate and colorspace: the source maps the
4:2:0 family, 4:2:2 and 4:4:4 to pixel formats and returns an invalid-input
error for every other colorspace, before any frame is read. -/
def Y4mDemuxer.new (width height : Nat) (framerate : Nat × Nat)
    (colorspace : Colorspace) : Except Error Y4mDemuxer :=
  match colorspace with
  | .c420 | .c420jpeg | .c420paldv | .c420mpeg2 =>
      .ok ⟨width, height, framerate, .yuv420p, 0⟩
  | .c422 => .ok ⟨width, height, framerate, .yuv422p, 0⟩
  | .c444 => .ok ⟨width, height, framerate, .yuv444p, 0⟩
  | _ => .error (.invalidInput "Unsupported Y4M colorspace")

/-- C7: every colorspace outside the accepted set (the 4:2:0 family, 4:2:2
and 4:4:4) makes `Y4mDemuxer::new` fail with an invalid-input error at open
time with no fallback pixel format, and each accepted tag maps to its
respective pixel format with the frame counter still 0. -/
theorem c7_y4m_new_colorspace (w h : Nat) (fr : Nat × Nat) (cs : Colorspace) :
    match cs with
    | .c420 | .c420jpeg | .c420paldv | .c420mpeg2 =>
        Y4mDemuxer.new w h fr cs = .ok ⟨w, h, fr, .yuv420p, 0⟩
    | .c422 => Y4mDemuxer.new w h fr cs = .ok ⟨w, h, fr, .yuv422p, 0⟩
    | .c444 => Y4mDemuxer.new w h fr cs = .ok ⟨w, h, fr, .yuv444p, 0⟩
    | _ => Y4mDemuxer.new w h fr cs =
        .error (.invalidInput "Unsupported Y4M colorspace") := by
  cases cs <;> rfl

/-! ## MP4 demuxer (src/mead-core/src/container/mp4.rs)

The external `mp4` crate stores the parsed tracks in a
`HashMap<u32, Mp4Track>`; its iteration order is unspecified, so the
embedding carries the track table as an association list in whatever
iteration order the map exhibits, and `keys().next()` is the head of that
list. -/

/-- One parsed sample of a track. -/
structure Mp4Sample where
  bytes : List Nat
  start_time : Nat
  is_sync : Bool
deriving DecidableEq

/-- One track: its samples in order. -/
structure Mp4Track where
  samples : List Mp4Sample
deriving DecidableEq

/-- The parsed reader, with the track table in map-iteration order. -/
structure Mp4Reader where
  tracks : List (Nat × Mp4Track)
deriving DecidableEq

/-- Embedding of the external `Mp4Reader::read_sample` for a 1-based sample
index: `Ok(None)` past the end of the track. -/
def Mp4Reader.read_sample (r : Mp4Reader) (track_id sample_id : Nat) :
    Except String (Option Mp4Sample) :=
  match r.tracks.lookup track_id with
  | none => .error "track not found"
  | some t => .ok (t.samples.get? (sample_id - 1))

/-- The `u64` to `i64` cast Rust applies to a sample's start time. -/
def u64ToI64 (n : Nat) : Int :=
  if n % 2 ^ 64 < 2 ^ 63 then (n % 2 ^ 64 : Nat) else (n % 2 ^ 64 : Nat) - 2 ^ 64

/-- The demuxer cursor state. -/
structure Mp4Demuxer where
  reader : Mp4Reader
  current_track : Option Nat
  current_sample : Nat
deriving DecidableEq

/-- Embedding of `Mp4Demuxer::select_track`: unknown ids fail, known ids
set the selection and reset the sample cursor. -/
def Mp4Demuxer.select_track (d : Mp4Demuxer) (track_id : Nat) :
    Except Error Unit × Mp4Demuxer :=
  if (d.reader.tracks.lookup track_id).isNone then
    (.error (.invalidInput "Track not found"), d)
  else
    (.ok (), { d with current_track := some track_id, current_sample := 0 })

/-- The shared tail of `read_packet` once a track id is at hand: advance the
1-based cursor, read that sample, convert it to a `Packet`; a missing sample
ends the track and clears the selection. -/
def Mp4Demuxer.readStep (d : Mp4Demuxer) (track_id : Nat) :
    Except Error (Option Packet) × Mp4Demuxer :=
  let d2 := { d with current_sample := (d.current_sample + 1) % 2 ^ 32 }
  match d2.reader.read_sample track_id d2.current_sample with
  | .ok (some s) =>
      (.ok (some ⟨track_id, s.bytes, some (u64ToI64 s.start_time), none, s.is_sync⟩), d2)
  | .ok none =>
      (.ok none, { d2 with current_track := none, current_sample := 0 })
  | .error e => (.error (.containerParse e), d2)

/-- Embedding of `Mp4Demuxer::read_packet`: with no selection it takes
`keys().next()` — the head of the map's iteration order — selects it and
reads from it; with no tracks at all it returns `Ok(None)`. -/
def Mp4Demuxer.read_packet (d : Mp4Demuxer) :
    Except Error (Option Packet) × Mp4Demuxer :=
  match d.current_track with
  | some id => d.readStep id
  | none =>
    match d.reader.tracks.head? with
    | some (first_id, _) =>
      match d.select_track first_id with
      | (.ok _, d2) => d2.readStep first_id
      | (.error e, d2) => (.error e, d2)
    | none => (.ok none, d)

/-- C5 counterexample: a reachable demuxer state whose map-iteration order
lists track 2 before track 1.  With no track selected, `read_packet` reads
track 2's first sample — not the track with the smallest id, although a
track with id 1 is present — because the source takes `keys().next()` from
a `HashMap`, whose iteration order is not sorted by id. -/
theorem c5_read_packet_not_smallest_id :
    (Mp4Demuxer.read_packet
        ⟨⟨[(2, ⟨[⟨[7, 7], 0, true⟩]⟩), (1, ⟨[⟨[5], 0, true⟩]⟩)]⟩, none, 0⟩).1 =
      .ok (some ⟨2, [7, 7], some 0, none, true⟩) ∧
    (List.lookup 1
        [((2 : Nat), Mp4Track.mk [⟨[7, 7], 0, true⟩]), (1, ⟨[⟨[5], 0, true⟩]⟩)]).isSome ∧
    (1 : Nat) < 2 := by
  refine ⟨rfl, rfl, by decide⟩

/-- C5 amended: with no track selected and a non-empty track table,
`read_packet` auto-selects the FIRST track in the map's iteration order
(not necessarily the smallest id) and reads its first sample. -/
theorem c5_read_packet_head_order (r : Mp4Reader) (id : Nat) (t : Mp4Track)
    (rest : List (Nat × Mp4Track)) (s : Mp4Sample) (ss : List Mp4Sample)
    (htr : r.tracks = (id, t) :: rest) (hs : t.samples = s :: ss) :
    (Mp4Demuxer.read_packet ⟨r, none, 0⟩).1 =
      .ok (some ⟨id, s.bytes, some (u64ToI64 s.start_time), none, s.is_sync⟩) ∧
    (Mp4Demuxer.read_packet ⟨r, none, 0⟩).2.current_track = some id := by
  have hlk : r.tracks.lookup id = some t := by
    rw [htr]
    simp [List.lookup]
  simp [Mp4Demuxer.read_packet, htr, Mp4Demuxer.select_track, Mp4Demuxer.readStep,
    Mp4Reader.read_sample, List.lookup, hs]

/-- C5 amended witness: a single-track table read from a fresh cursor. -/
theorem c5_read_packet_head_order_witness :
    (Mp4Demuxer.read_packet
        ⟨⟨[(3, ⟨[⟨[9], 4, false⟩]⟩)]⟩, none, 0⟩).1 =
      .ok (some ⟨3, [9], some (u64ToI64 4), none, false⟩) :=
  (c5_read_packet_head_order ⟨[(3, ⟨[⟨[9], 4, false⟩]⟩)]⟩ 3
    ⟨[⟨[9], 4, false⟩]⟩ [] ⟨[9], 4, false⟩ [] rfl rfl).1

end Mead
